import Mathlib

/-!
Verification of the SPHinXsys spatial-adaptation core: a shallow embedding of
`src/SPHINXsys/src/shared/adaptations/adaptation.cpp` (resolution policies) and
`src/SPHINXsys/src/shared/body_relations/base_body_relation.cpp` (neighbor
relations), with theorems about the embedded operations. `Real` values of the
source are modelled as `ℚ` wherever the source computes field operations only;
the one fractional root (`pow(x, 1.0/Dimensions)` in
`ParticleSplitAndMerge::MostRefinedSpacing`) is modelled over `ℝ`.
-/

namespace SPHinXsysAdaptation

/-- Model of the smoothing-kernel interface the adaptation code consumes
(class `Kernel`; the concrete implementation `KernelWendlandC2` lives outside
the embedded files). `W2 x y` / `W3 x y z` give the weight `W(|offset|, offset)`
at a planar / spatial offset, since the first argument of the source's
`W(distance, location)` is always the norm of the second; `W1D` is the 1-D
slice `W_1D`, `cutoffRadius` is `CutOffRadius()` and `kernelSize` is
`KernelSize()`. -/
structure Kernel where
  cutoffRadius : ℚ
  kernelSize : ℚ
  W2 : ℚ → ℚ → ℚ
  W3 : ℚ → ℚ → ℚ → ℚ
  W1D : ℚ → ℚ

/-- `powerN(Real, int)` of the source's math helpers: repeated multiplication,
for nonnegative exponents (the only way the embedded code calls it). -/
def powerN (x : ℚ) (n : ℕ) : ℚ :=
  x ^ n

/-- `SPHAdaptation::computeReferenceNumberDensity(Vec2d)` (adaptation.cpp
lines 36-51): `search_depth = int(cutoff_radius / particle_spacing) + 1`
(truncation equals `⌊·⌋` for the nonnegative arguments this code meets), then a
double loop over `j, i ∈ [-search_depth, search_depth]` that adds
`W(distance, location)` whenever `distance < cutoff_radius`. The source
compares the offset's Euclidean norm with the cutoff radius; both sides being
nonnegative (the cutoff radius is positive), that comparison equals the squared
comparison written here, which keeps the definition inside `ℚ`. -/
def computeReferenceNumberDensity2D (kernel_ptr : Kernel) (particle_spacing : ℚ) : ℚ :=
  let cutoff_radius := kernel_ptr.cutoffRadius
  let search_depth : ℤ := ⌊cutoff_radius / particle_spacing⌋ + 1
  ∑ j ∈ Finset.Icc (-search_depth) search_depth,
    ∑ i ∈ Finset.Icc (-search_depth) search_depth,
      if ((i : ℚ) * particle_spacing) ^ 2 + ((j : ℚ) * particle_spacing) ^ 2
          < cutoff_radius ^ 2 then
        kernel_ptr.W2 ((i : ℚ) * particle_spacing) ((j : ℚ) * particle_spacing)
      else 0

/-- `SPHAdaptation::computeReferenceNumberDensity(Vec3d)` (adaptation.cpp
lines 53-70): the triple-loop form, with the same squared reading of the
norm comparison as in the 2-D form. -/
def computeReferenceNumberDensity3D (kernel_ptr : Kernel) (particle_spacing : ℚ) : ℚ :=
  let cutoff_radius := kernel_ptr.cutoffRadius
  let search_depth : ℤ := ⌊cutoff_radius / particle_spacing⌋ + 1
  ∑ k ∈ Finset.Icc (-search_depth) search_depth,
    ∑ j ∈ Finset.Icc (-search_depth) search_depth,
      ∑ i ∈ Finset.Icc (-search_depth) search_depth,
        if ((i : ℚ) * particle_spacing) ^ 2 + ((j : ℚ) * particle_spacing) ^ 2
            + ((k : ℚ) * particle_spacing) ^ 2 < cutoff_radius ^ 2 then
          kernel_ptr.W3 ((i : ℚ) * particle_spacing) ((j : ℚ) * particle_spacing)
            ((k : ℚ) * particle_spacing)
        else 0

/-- `SPHAdaptation::MostRefinedSpacing` (adaptation.cpp lines 31-34), the base
class's version of the virtual method. -/
def SPHAdaptation.MostRefinedSpacing (coarse_particle_spacing : ℚ)
    (refinement_level : ℕ) : ℚ :=
  coarse_particle_spacing / powerN 2 refinement_level

/-- The data members of `SPHAdaptation` (adaptation.h lines 59-67; the
trailing underscores of the C++ field names are dropped). The refinement
level, an `int` that is never negative, is `ℕ`. -/
structure SPHAdaptationState where
  h_spacing_ratio : ℚ
  system_refinement_ratio : ℚ
  local_refinement_level : ℕ
  spacing_ref : ℚ
  h_ref : ℚ
  kernel : Kernel
  sigma0_ref : ℚ
  spacing_min : ℚ
  h_ratio_max : ℚ

/-- `SPHAdaptation::SPHAdaptation(Real, Real, Real)` (adaptation.cpp lines
20-26), for the 2-D build (`Vecd = Vec2d`, `Dimensions = 2`). `mkKernel`
models `makeUnique<KernelWendlandC2>(h_ref_)`: the kernel construction at a
given smoothing length (the kernel implementation lives outside the embedded
files, so it stays a parameter). The member initializers run in declaration
order; `local_refinement_level_` is 0. -/
def SPHAdaptation.construct (mkKernel : ℚ → Kernel)
    (resolution_ref h_spacing_ratio system_refinement_ratio : ℚ) :
    SPHAdaptationState :=
  let spacing_ref := resolution_ref / system_refinement_ratio
  let h_ref := h_spacing_ratio * spacing_ref
  let kernel := mkKernel h_ref
  { h_spacing_ratio := h_spacing_ratio
    system_refinement_ratio := system_refinement_ratio
    local_refinement_level := 0
    spacing_ref := spacing_ref
    h_ref := h_ref
    kernel := kernel
    sigma0_ref := computeReferenceNumberDensity2D kernel spacing_ref
    spacing_min := SPHAdaptation.MostRefinedSpacing spacing_ref 0
    h_ratio_max := powerN 2 0 }

/-- `SPHAdaptation::resetAdaptationRatios` (adaptation.cpp lines 77-87) on a
base-policy object, where the virtual `MostRefinedSpacing` resolves to the base
version. The new `spacing_ref_` is computed with the old
`system_refinement_ratio_` before that field is overwritten, exactly as the
statement order of the source does; the last line is the source's
`h_ratio_max_ = h_ref_ * spacing_ref_ / spacing_min_`. -/
def SPHAdaptation.resetAdaptationRatios (mkKernel : ℚ → Kernel)
    (st : SPHAdaptationState) (h_spacing_ratio new_system_refinement_ratio : ℚ) :
    SPHAdaptationState :=
  let spacing_ref := st.spacing_ref * st.system_refinement_ratio / new_system_refinement_ratio
  let h_ref := h_spacing_ratio * spacing_ref
  let kernel := mkKernel h_ref
  let spacing_min := SPHAdaptation.MostRefinedSpacing spacing_ref st.local_refinement_level
  { h_spacing_ratio := h_spacing_ratio
    system_refinement_ratio := new_system_refinement_ratio
    local_refinement_level := st.local_refinement_level
    spacing_ref := spacing_ref
    h_ref := h_ref
    kernel := kernel
    sigma0_ref := computeReferenceNumberDensity2D kernel spacing_ref
    spacing_min := spacing_min
    h_ratio_max := h_ref * spacing_ref / spacing_min }

/-- `ParticleWithLocalRefinement::ParticleWithLocalRefinement` (adaptation.cpp
lines 106-114): the base constructor runs first (with the body's reference
resolution, taken here directly as `resolution_ref`), then the constructor body
overwrites `local_refinement_level_`, `spacing_min_` (through the base
`MostRefinedSpacing`, which this class does not override) and `h_ratio_max_`. -/
def ParticleWithLocalRefinement.construct (mkKernel : ℚ → Kernel)
    (resolution_ref h_spacing_ratio system_refinement_ratio : ℚ)
    (local_refinement_level : ℕ) : SPHAdaptationState :=
  let base := SPHAdaptation.construct mkKernel resolution_ref h_spacing_ratio
    system_refinement_ratio
  { base with
    local_refinement_level := local_refinement_level
    spacing_min := SPHAdaptation.MostRefinedSpacing base.spacing_ref local_refinement_level
    h_ratio_max := powerN 2 local_refinement_level }

/-- `ParticleSplitAndMerge::isSplitAllowed` (adaptation.cpp lines 189-192).
`Eps` is the numerical tolerance constant of the source's base data package
(outside the embedded files), passed as a parameter; `minimum_volume` is the
`minimum_volume_` member. -/
def ParticleSplitAndMerge.isSplitAllowed (Eps minimum_volume current_volume : ℚ) :
    Bool :=
  if current_volume - 2 * minimum_volume > -Eps then true else false

/-- `ParticleSplitAndMerge::mergeResolutionCheck` (adaptation.cpp lines
194-197): the source recomputes `powerN(spacing_min_, Dimensions)` inline
rather than reading `minimum_volume_`. -/
def ParticleSplitAndMerge.mergeResolutionCheck (Eps spacing_min : ℚ)
    (Dimensions : ℕ) (volume : ℚ) : Bool :=
  if volume - 1.2 * powerN spacing_min Dimensions < Eps then true else false

/-- `ParticleSplitAndMerge::MostRefinedSpacing` (adaptation.cpp lines
207-212): the refinement level halves particle volume, so the spacing ratio is
the `Dimensions`-th root `pow(minimum_spacing_particles, 1.0 / Dimensions)`.
The fractional root forces this definition (alone) over `ℝ`; the exponent is a
real number, so `^` is `Real.rpow`. -/
noncomputable def ParticleSplitAndMerge.MostRefinedSpacing (Dimensions : ℕ)
    (coarse_particle_spacing : ℝ) (local_refinement_level : ℕ) : ℝ :=
  let minimum_spacing_particles : ℝ := 2 ^ local_refinement_level
  let spacing_ratio : ℝ := minimum_spacing_particles ^ ((1 : ℝ) / (Dimensions : ℝ))
  coarse_particle_spacing / spacing_ratio

/-- The fields written by the constructor body of
`ParticleSplitAndMerge::ParticleSplitAndMerge` (adaptation.cpp lines 183-186). -/
structure SplitMergeSpacing where
  spacing_min : ℝ
  h_ratio_max : ℝ
  minimum_volume : ℝ
  maximum_volume : ℝ

/-- The constructor body of `ParticleSplitAndMerge` (adaptation.cpp lines
178-187), as a function of the inherited `spacing_ref_` (set by the base
constructor) and the refinement level: `spacing_min_` through the virtual
`MostRefinedSpacing`, which resolves to this class's override, then
`h_ratio_max_ = spacing_ref_ / spacing_min_` and the volume bounds
`powerN(spacing_min_, Dimensions)`, `powerN(spacing_ref_, Dimensions)`. -/
noncomputable def ParticleSplitAndMerge.constructSpacing (Dimensions : ℕ)
    (spacing_ref : ℝ) (local_refinement_level : ℕ) : SplitMergeSpacing :=
  let spacing_min := ParticleSplitAndMerge.MostRefinedSpacing Dimensions spacing_ref
    local_refinement_level
  { spacing_min := spacing_min
    h_ratio_max := spacing_ref / spacing_min
    minimum_volume := spacing_min ^ Dimensions
    maximum_volume := spacing_ref ^ Dimensions }

/-- `ParticleRefinementByShape::smoothedSpacing` (adaptation.cpp lines
154-164), parameterized over the kernel and the two spacing fields it reads. -/
def ParticleRefinementByShape.smoothedSpacing (kernel_ptr : Kernel)
    (spacing_ref spacing_min : ℚ) (measure transition_thickness : ℚ) : ℚ :=
  let ratio_ref := measure / (2 * transition_thickness)
  if ratio_ref < kernel_ptr.kernelSize then
    let weight := kernel_ptr.W1D ratio_ref / kernel_ptr.W1D 0
    weight * spacing_min + (1 - weight) * spacing_ref
  else spacing_ref

/-- A `Neighborhood` of base_body_relation.cpp as the embedded operations see
it: the neighbor-record arrays live outside the embedded files and are never
touched by the embedded code, which reads and writes only the `current_size_`
counter. -/
structure Neighborhood where
  current_size : ℕ

/-- The two particle counters of `BaseParticles` the embedded relation code
reads: `total_real_particles_` and `real_particles_bound_` (the containers are
sized to the bound, the reset loops run to the total). -/
structure BaseParticlesState where
  total_real_particles : ℕ
  real_particles_bound : ℕ

/-- The state of a `BaseInnerRelation`: its particle counters and
`inner_configuration_`, one `Neighborhood` per container slot (the list
position is the particle index). -/
structure BaseInnerRelationState where
  base_particles : BaseParticlesState
  inner_configuration : List Neighborhood

/-- The state of a `BaseContactRelation`: `contact_configuration_` holds one
`Neighborhood` array per contact body. -/
structure BaseContactRelationState where
  base_particles : BaseParticlesState
  contact_configuration : List (List Neighborhood)

/-- The write pattern of the `parallel_for` in `resetNeighborhoodCurrentSize`
(base_body_relation.cpp lines 40-52 and 71-86): `current_size_ = 0` at every
index in `[0, n)` of a configuration, all other entries untouched. The parallel
partitions are disjoint contiguous blocks of that index range, so the loop
equals this sequential recursion down the list. -/
def resetCurrentSizeBelow : ℕ → List Neighborhood → List Neighborhood
  | _, [] => []
  | 0, config => config
  | n + 1, nb :: rest => { nb with current_size := 0 } :: resetCurrentSizeBelow n rest

/-- `BaseInnerRelation::resetNeighborhoodCurrentSize` (base_body_relation.cpp
lines 40-52): zeroes `current_size_` of `inner_configuration_[num]` for every
`num` in `[0, total_real_particles_)`. -/
def BaseInnerRelation.resetNeighborhoodCurrentSize (st : BaseInnerRelationState) :
    BaseInnerRelationState :=
  { st with inner_configuration :=
      resetCurrentSizeBelow st.base_particles.total_real_particles st.inner_configuration }

/-- `BaseContactRelation::resetNeighborhoodCurrentSize` (base_body_relation.cpp
lines 71-86): the outer loop runs over the contact bodies, the inner
`parallel_for` zeroes `contact_configuration_[k][num].current_size_` for every
`num` in `[0, total_real_particles_)`. -/
def BaseContactRelation.resetNeighborhoodCurrentSize (st : BaseContactRelationState) :
    BaseContactRelationState :=
  { st with contact_configuration :=
      st.contact_configuration.map fun config =>
        resetCurrentSizeBelow st.base_particles.total_real_particles config }

/-- An `SPHBody` as the body-part conversion sees it: `is_real` records
whether the object's dynamic type is `RealBody` (the only aspect
`DynamicCast<RealBody>` inspects); `body_id` distinguishes bodies. -/
structure SPHBody where
  body_id : ℕ
  is_real : Bool
deriving DecidableEq

/-- A `BodyPart`: `sph_body` is the owning body returned by `getSPHBody()`. -/
structure BodyPart where
  sph_body : SPHBody
deriving DecidableEq

/-- `DynamicCast<RealBody>` (a helper of `base_data_package.h`, outside the
embedded files): a checked downcast that prints an error and terminates the
program (`exit(1)`) when the castee's dynamic type is not the requested one;
the termination is modelled as `Except.error`. -/
def DynamicCastRealBody (body : SPHBody) : Except Unit SPHBody :=
  if body.is_real then Except.ok body else Except.error ()

/-- `BodyPartsToRealBodies` (base_body_relation.cpp lines 13-22): for every
body part in order, push `DynamicCast<RealBody>(...)` of its owning body onto
the result — one output per input, each cast checked before the next part is
visited. -/
def BodyPartsToRealBodies : List BodyPart → Except Unit (List SPHBody)
  | [] => Except.ok []
  | part :: rest => do
      let body ← DynamicCastRealBody part.sph_body
      let bodies ← BodyPartsToRealBodies rest
      Except.ok (body :: bodies)

/-- Modelled from the spec: the kernel contract of §6 — a smoothing-weight
function with a fixed cutoff radius and a characteristic size, and a 1-D slice
`W_1D` with smooth 1→0 falloff across the kernel size — standing in for the
concrete `KernelWendlandC2`, whose source is outside the embedded files. This
instance has kernel size 2 and cutoff radius `2h` like the Wendland C2 kernel;
its weights are used only to evaluate witnesses. -/
def specKernel (h : ℚ) : Kernel :=
  { cutoffRadius := 2 * h
    kernelSize := 2
    W2 := fun _ _ => 1
    W3 := fun _ _ _ => 1
    W1D := fun q => if q < 2 then (1 - q / 2) ^ 4 * (1 + 2 * q) else 0 }

/-- Entries of a configuration below the reset bound all end with a zero
counter. -/
theorem resetCurrentSizeBelow_take (n : ℕ) (config : List Neighborhood) :
    ∀ nb ∈ (resetCurrentSizeBelow n config).take n, nb.current_size = 0 := by
  induction config generalizing n with
  | nil => simp [resetCurrentSizeBelow]
  | cons nb rest ih =>
    cases n with
    | zero => simp
    | succ m =>
      intro x hx
      simp only [resetCurrentSizeBelow, List.take_succ_cons, List.mem_cons] at hx
      rcases hx with h | h
      · rw [h]
      · exact ih m x h

/-- Entries of a configuration at or beyond the reset bound are untouched. -/
theorem resetCurrentSizeBelow_drop (n : ℕ) (config : List Neighborhood) :
    (resetCurrentSizeBelow n config).drop n = config.drop n := by
  induction config generalizing n with
  | nil => simp [resetCurrentSizeBelow]
  | cons nb rest ih =>
    cases n with
    | zero => rfl
    | succ m => simpa [resetCurrentSizeBelow] using ih m

/-- Resetting the counters twice is the same as resetting them once. -/
theorem resetCurrentSizeBelow_idem (n : ℕ) (config : List Neighborhood) :
    resetCurrentSizeBelow n (resetCurrentSizeBelow n config) =
      resetCurrentSizeBelow n config := by
  induction config generalizing n with
  | nil => simp [resetCurrentSizeBelow]
  | cons nb rest ih =>
    cases n with
    | zero => rfl
    | succ m => simp [resetCurrentSizeBelow, ih m]

/-- C2 (amended): after `resetNeighborhoodCurrentSize`, every Neighborhood at
an index below `total_real_particles_` — the index range the parallel loop
covers — has `currentSize == 0` (for contact relations in every
per-contact-body array), entries at indices at or beyond
`total_real_particles_` keep their prior state, and a second call changes
nothing. -/
theorem c2_reset_neighborhood (inner : BaseInnerRelationState)
    (contact : BaseContactRelationState) :
    (∀ nb ∈ (BaseInnerRelation.resetNeighborhoodCurrentSize inner).inner_configuration.take
        inner.base_particles.total_real_particles, nb.current_size = 0) ∧
    (BaseInnerRelation.resetNeighborhoodCurrentSize inner).inner_configuration.drop
        inner.base_particles.total_real_particles =
      inner.inner_configuration.drop inner.base_particles.total_real_particles ∧
    BaseInnerRelation.resetNeighborhoodCurrentSize
        (BaseInnerRelation.resetNeighborhoodCurrentSize inner) =
      BaseInnerRelation.resetNeighborhoodCurrentSize inner ∧
    (∀ config ∈ (BaseContactRelation.resetNeighborhoodCurrentSize contact).contact_configuration,
      (∀ nb ∈ config.take contact.base_particles.total_real_particles,
        nb.current_size = 0) ∧
      ∃ prior ∈ contact.contact_configuration,
        config.drop contact.base_particles.total_real_particles =
          prior.drop contact.base_particles.total_real_particles) ∧
    BaseContactRelation.resetNeighborhoodCurrentSize
        (BaseContactRelation.resetNeighborhoodCurrentSize contact) =
      BaseContactRelation.resetNeighborhoodCurrentSize contact := by
  refine ⟨?_, ?_, ?_, ?_, ?_⟩
  · exact resetCurrentSizeBelow_take _ _
  · exact resetCurrentSizeBelow_drop _ _
  · simp only [BaseInnerRelation.resetNeighborhoodCurrentSize,
      resetCurrentSizeBelow_idem]
  · intro config hconfig
    simp only [BaseContactRelation.resetNeighborhoodCurrentSize, List.mem_map] at hconfig
    obtain ⟨prior, hprior, rfl⟩ := hconfig
    exact ⟨resetCurrentSizeBelow_take _ _, prior, hprior, resetCurrentSizeBelow_drop _ _⟩
  · simp only [BaseContactRelation.resetNeighborhoodCurrentSize, List.map_map]
    congr 1
    refine List.map_congr_left fun config _ => ?_
    exact resetCurrentSizeBelow_idem _ _

/-- C2 counterexample: with `total_real_particles_ = 1` but a container sized
to `real_particles_bound_ = 2`, a nonzero counter in the container entry at
index 1 survives the reset — so not every Neighborhood owned by the relation
ends with `currentSize == 0` under arbitrary prior state. -/
theorem c2_reset_counterexample :
    (BaseInnerRelation.resetNeighborhoodCurrentSize
        { base_particles := { total_real_particles := 1, real_particles_bound := 2 }
          inner_configuration := [{ current_size := 3 }, { current_size := 4 }] }).inner_configuration =
      [{ current_size := 0 }, { current_size := 4 }] ∧
    ¬ ∀ nb ∈ (BaseInnerRelation.resetNeighborhoodCurrentSize
        { base_particles := { total_real_particles := 1, real_particles_bound := 2 }
          inner_configuration := [{ current_size := 3 }, { current_size := 4 }] }).inner_configuration,
      nb.current_size = 0 := by
  constructor
  · rfl
  · intro h
    have h4 := h { current_size := 4 } (by
      simp [BaseInnerRelation.resetNeighborhoodCurrentSize, resetCurrentSizeBelow])
    simp at h4

/-- C3: `isSplitAllowed(V)` is true iff `V - 2*minimumVolume > -ε`, and
`mergeResolutionCheck(V)` is true iff `V - 1.2*spacingMin^Dimensions < ε`
(`minimumVolume = spacingMin^Dimensions`); with `spacingMin = 0.05` and
`Dimensions = 2` (so `minimumVolume = 0.0025`), a particle of volume `0.006`
is split-allowed and one of volume `0.0026` is merge-eligible, for every
positive tolerance `ε`. -/
theorem c3_split_merge_thresholds (Eps minimum_volume spacing_min volume : ℚ)
    (Dimensions : ℕ) (hEps : 0 < Eps) :
    (ParticleSplitAndMerge.isSplitAllowed Eps minimum_volume volume = true ↔
      volume - 2 * minimum_volume > -Eps) ∧
    (ParticleSplitAndMerge.mergeResolutionCheck Eps spacing_min Dimensions volume = true ↔
      volume - 1.2 * powerN spacing_min Dimensions < Eps) ∧
    ParticleSplitAndMerge.isSplitAllowed Eps (powerN (1/20) 2) (6/1000) = true ∧
    ParticleSplitAndMerge.mergeResolutionCheck Eps (1/20) 2 (26/10000) = true := by
  refine ⟨?_, ?_, ?_, ?_⟩
  · simp [ParticleSplitAndMerge.isSplitAllowed]
  · simp [ParticleSplitAndMerge.mergeResolutionCheck]
  · simp only [ParticleSplitAndMerge.isSplitAllowed, powerN]
    rw [if_pos (by norm_num; linarith : (6/1000 : ℚ) - 2 * (1/20 : ℚ) ^ 2 > -Eps)]
  · simp only [ParticleSplitAndMerge.mergeResolutionCheck, powerN]
    rw [if_pos (by norm_num; linarith : (26/10000 : ℚ) - 1.2 * (1/20 : ℚ) ^ 2 < Eps)]

theorem c3_split_merge_thresholds_witness :
    ((ParticleSplitAndMerge.isSplitAllowed 1 (1/400) (13/5000) = true ↔
      (13/5000 : ℚ) - 2 * (1/400) > -1) ∧
    (ParticleSplitAndMerge.mergeResolutionCheck 1 (1/20) 2 (13/5000) = true ↔
      (13/5000 : ℚ) - 1.2 * powerN (1/20) 2 < 1) ∧
    ParticleSplitAndMerge.isSplitAllowed 1 (powerN (1/20) 2) (6/1000) = true ∧
    ParticleSplitAndMerge.mergeResolutionCheck 1 (1/20) 2 (26/10000) = true) :=
  c3_split_merge_thresholds 1 (1/400) (1/20) (13/5000) 2 (by norm_num)

/-- C8: local-refinement construction yields `spacingMin = spacingRef / 2^L`
and `hRatioMax = 2^L`; in particular for `L = 2`, `spacingMin = spacingRef/4`
and `hRatioMax = 4`. -/
theorem c8_local_refinement_spacing (mkKernel : ℚ → Kernel)
    (resolution_ref h_spacing_ratio system_refinement_ratio : ℚ) (L : ℕ) :
    ((ParticleWithLocalRefinement.construct mkKernel resolution_ref h_spacing_ratio
        system_refinement_ratio L).spacing_min =
      (ParticleWithLocalRefinement.construct mkKernel resolution_ref h_spacing_ratio
        system_refinement_ratio L).spacing_ref / 2 ^ L) ∧
    ((ParticleWithLocalRefinement.construct mkKernel resolution_ref h_spacing_ratio
        system_refinement_ratio L).h_ratio_max = 2 ^ L) ∧
    ((ParticleWithLocalRefinement.construct mkKernel resolution_ref h_spacing_ratio
        system_refinement_ratio 2).spacing_min =
      (ParticleWithLocalRefinement.construct mkKernel resolution_ref h_spacing_ratio
        system_refinement_ratio 2).spacing_ref / 4) ∧
    (ParticleWithLocalRefinement.construct mkKernel resolution_ref h_spacing_ratio
        system_refinement_ratio 2).h_ratio_max = 4 := by
  refine ⟨?_, ?_, ?_, ?_⟩ <;>
    norm_num [ParticleWithLocalRefinement.construct, SPHAdaptation.construct,
      SPHAdaptation.MostRefinedSpacing, powerN]

/-- C4 (amended): the conversion helper performs no filtering — when every
body part's owning body is a `RealBody` it returns all of them, in order (one
output per input); as soon as any part's owning body is not a `RealBody`, the
conversion is a fatal cast error (`exit(1)`, modelled as `Except.error`) — the
offending part is not dropped. -/
theorem c4_bodyparts_not_filtered (parts : List BodyPart) :
    ((∀ part ∈ parts, part.sph_body.is_real = true) →
      BodyPartsToRealBodies parts =
        Except.ok (parts.map fun part => part.sph_body)) ∧
    ((∃ part ∈ parts, part.sph_body.is_real = false) →
      BodyPartsToRealBodies parts = Except.error ()) := by
  induction parts with
  | nil =>
    refine ⟨fun _ => rfl, ?_⟩
    rintro ⟨part, hmem, -⟩
    exact absurd hmem (List.not_mem_nil part)
  | cons p rest ih =>
    constructor
    · intro h
      have hp := h p (List.mem_cons_self p rest)
      have hrest := ih.1 fun q hq => h q (List.mem_cons_of_mem p hq)
      simp only [BodyPartsToRealBodies, DynamicCastRealBody, hp, if_true,
        List.map_cons, hrest]
      rfl
    · rintro ⟨q, hq, hq_nonreal⟩
      rcases List.mem_cons.mp hq with rfl | hq_rest
      · simp only [BodyPartsToRealBodies, DynamicCastRealBody, hq_nonreal,
          Bool.false_eq_true, if_false]
        rfl
      · cases hp : p.sph_body.is_real with
        | false =>
          simp only [BodyPartsToRealBodies, DynamicCastRealBody, hp,
            Bool.false_eq_true, if_false]
          rfl
        | true =>
          have hrest := ih.2 ⟨q, hq_rest, hq_nonreal⟩
          simp only [BodyPartsToRealBodies, DynamicCastRealBody, hp, if_true, hrest]
          rfl

/-- C4 counterexample: a list holding one real and one non-real body. The
claim says the helper returns exactly the real bodies among them (dropping the
other) with no runtime fault; the code instead casts every part, and the
non-real one terminates the program. -/
theorem c4_nonreal_body_aborts :
    BodyPartsToRealBodies
        [{ sph_body := { body_id := 0, is_real := true } },
         { sph_body := { body_id := 1, is_real := false } }] =
      Except.error () ∧
    BodyPartsToRealBodies
        [{ sph_body := { body_id := 0, is_real := true } },
         { sph_body := { body_id := 1, is_real := false } }] ≠
      Except.ok [{ body_id := 0, is_real := true }] := by
  refine ⟨rfl, fun h => ?_⟩
  rw [show BodyPartsToRealBodies
      [{ sph_body := { body_id := 0, is_real := true } },
       { sph_body := { body_id := 1, is_real := false } }] =
    Except.error () from rfl] at h
  exact Except.noConfusion h

/-- C5 (amended): no parameter validation is performed — construction (and
`resetAdaptationRatios`) proceeds for every refinement ratio, including
negative ones: the state is installed with `spacingRef = referenceResolution /
refinementRatio` and `hRef = smoothingRatio * spacingRef` as computed, so a
positive resolution with a negative refinement ratio yields a negative
installed `spacingRef` instead of a surfaced error. -/
theorem c5_no_validation (mkKernel : ℚ → Kernel)
    (resolution_ref h_spacing_ratio system_refinement_ratio : ℚ)
    (hres : 0 < resolution_ref) (hsrr : system_refinement_ratio < 0) :
    (SPHAdaptation.construct mkKernel resolution_ref h_spacing_ratio
        system_refinement_ratio).spacing_ref =
      resolution_ref / system_refinement_ratio ∧
    (SPHAdaptation.construct mkKernel resolution_ref h_spacing_ratio
        system_refinement_ratio).h_ref =
      h_spacing_ratio * (resolution_ref / system_refinement_ratio) ∧
    (SPHAdaptation.construct mkKernel resolution_ref h_spacing_ratio
        system_refinement_ratio).spacing_ref < 0 :=
  ⟨rfl, rfl, div_neg_of_pos_of_neg hres hsrr⟩

theorem c5_no_validation_witness :
    (SPHAdaptation.construct specKernel (1/10) (13/10) (-1)).spacing_ref =
      (1/10 : ℚ) / (-1) ∧
    (SPHAdaptation.construct specKernel (1/10) (13/10) (-1)).h_ref =
      (13/10 : ℚ) * ((1/10 : ℚ) / (-1)) ∧
    (SPHAdaptation.construct specKernel (1/10) (13/10) (-1)).spacing_ref < 0 :=
  c5_no_validation specKernel (1/10) (13/10) (-1) (by norm_num) (by norm_num)

/-- C5 counterexample: at refinement ratio `-1` (≤ 0), both construction and
`resetAdaptationRatios` proceed and install a fully-computed state with
`spacingRef = -0.1` — the operation does not fail. -/
theorem c5_proceeds_counterexample :
    (SPHAdaptation.construct specKernel (1/10) (13/10) (-1)).spacing_ref =
      -(1/10) ∧
    (SPHAdaptation.resetAdaptationRatios specKernel
        (SPHAdaptation.construct specKernel (1/10) (13/10) 1) (13/10)
        (-1)).spacing_ref = -(1/10) := by
  constructor <;>
    norm_num [SPHAdaptation.construct, SPHAdaptation.resetAdaptationRatios]

/-- C1 (code bug): at the failing input — base policy constructed from
`(referenceResolution, smoothingRatio, refinementRatio) = (0.1, 1.3, 1.0)`,
then `resetAdaptationRatios(1.3, 1.0)` — `spacingRef`, `hRef`, `sigma0Ref` and
`spacingMin` all match fresh construction, but `hRatioMax` becomes
`hRef * spacingRef / spacingMin = 0.13` (line 86 of adaptation.cpp), not the
fresh-construction value `2^level = 1` of line 26, violating the documented
invariant `hRatioMax ≥ 1`. -/
theorem c1_reset_h_ratio_max_bug :
    (SPHAdaptation.resetAdaptationRatios specKernel
        (SPHAdaptation.construct specKernel (1/10) (13/10) 1) (13/10) 1).spacing_ref =
      (SPHAdaptation.construct specKernel (1/10) (13/10) 1).spacing_ref ∧
    (SPHAdaptation.resetAdaptationRatios specKernel
        (SPHAdaptation.construct specKernel (1/10) (13/10) 1) (13/10) 1).h_ref =
      (SPHAdaptation.construct specKernel (1/10) (13/10) 1).h_ref ∧
    (SPHAdaptation.resetAdaptationRatios specKernel
        (SPHAdaptation.construct specKernel (1/10) (13/10) 1) (13/10) 1).sigma0_ref =
      (SPHAdaptation.construct specKernel (1/10) (13/10) 1).sigma0_ref ∧
    (SPHAdaptation.resetAdaptationRatios specKernel
        (SPHAdaptation.construct specKernel (1/10) (13/10) 1) (13/10) 1).spacing_min =
      (SPHAdaptation.construct specKernel (1/10) (13/10) 1).spacing_min ∧
    (SPHAdaptation.resetAdaptationRatios specKernel
        (SPHAdaptation.construct specKernel (1/10) (13/10) 1) (13/10) 1).h_ratio_max =
      13/100 ∧
    (SPHAdaptation.construct specKernel (1/10) (13/10) 1).h_ratio_max = 1 ∧
    ¬ 1 ≤ (SPHAdaptation.resetAdaptationRatios specKernel
        (SPHAdaptation.construct specKernel (1/10) (13/10) 1) (13/10) 1).h_ratio_max := by
  refine ⟨?_, ?_, ?_, ?_, ?_, ?_, ?_⟩ <;>
    norm_num [SPHAdaptation.construct, SPHAdaptation.resetAdaptationRatios,
      SPHAdaptation.MostRefinedSpacing, powerN]

/-- C7: `smoothedSpacing(measure, transitionThickness)` computes
`ratio = measure / (2*thickness)`; below the kernel size it returns the blend
`w*spacingMin + (1-w)*spacingRef` with `w = W_1D(ratio)/W_1D(0)`, otherwise
`spacingRef` unmodified; hence the result is `spacingMin` at `measure = 0`,
`spacingRef` for every measure at or beyond the kernel-size boundary, and the
blend expression itself equals `spacingRef` at the boundary (spec-modelled
kernel facts `W_1D(0) ≠ 0`, `W_1D(kernelSize) = 0`, the 1→0 falloff of §6),
so the two branches agree there — no discontinuity. -/
theorem c7_smoothed_spacing (k : Kernel)
    (spacing_ref spacing_min transition_thickness : ℚ)
    (hks : 0 < k.kernelSize) (ht : 0 < transition_thickness)
    (hW0 : k.W1D 0 ≠ 0) (hWb : k.W1D k.kernelSize = 0) :
    (∀ measure : ℚ, measure / (2 * transition_thickness) < k.kernelSize →
      ParticleRefinementByShape.smoothedSpacing k spacing_ref spacing_min measure
          transition_thickness =
        k.W1D (measure / (2 * transition_thickness)) / k.W1D 0 * spacing_min +
          (1 - k.W1D (measure / (2 * transition_thickness)) / k.W1D 0) *
            spacing_ref) ∧
    (∀ measure : ℚ, k.kernelSize ≤ measure / (2 * transition_thickness) →
      ParticleRefinementByShape.smoothedSpacing k spacing_ref spacing_min measure
          transition_thickness = spacing_ref) ∧
    ParticleRefinementByShape.smoothedSpacing k spacing_ref spacing_min 0
        transition_thickness = spacing_min ∧
    (∀ measure : ℚ, 2 * transition_thickness * k.kernelSize ≤ measure →
      ParticleRefinementByShape.smoothedSpacing k spacing_ref spacing_min measure
          transition_thickness = spacing_ref) ∧
    k.W1D k.kernelSize / k.W1D 0 * spacing_min +
        (1 - k.W1D k.kernelSize / k.W1D 0) * spacing_ref = spacing_ref := by
  have h2t : (0 : ℚ) < 2 * transition_thickness := by linarith
  refine ⟨?_, ?_, ?_, ?_, ?_⟩
  · intro measure hm
    simp only [ParticleRefinementByShape.smoothedSpacing, if_pos hm]
  · intro measure hm
    simp only [ParticleRefinementByShape.smoothedSpacing, if_neg (not_lt.mpr hm)]
  · simp only [ParticleRefinementByShape.smoothedSpacing, zero_div, if_pos hks,
      div_self hW0]
    ring
  · intro measure hm
    have hge : k.kernelSize ≤ measure / (2 * transition_thickness) := by
      rw [le_div_iff₀ h2t]
      linarith
    simp only [ParticleRefinementByShape.smoothedSpacing, if_neg (not_lt.mpr hge)]
  · rw [hWb]
    ring

theorem c7_smoothed_spacing_witness :
    (∀ measure : ℚ, measure / (2 * 1) < (specKernel 1).kernelSize →
      ParticleRefinementByShape.smoothedSpacing (specKernel 1) 2 1 measure 1 =
        (specKernel 1).W1D (measure / (2 * 1)) / (specKernel 1).W1D 0 * 1 +
          (1 - (specKernel 1).W1D (measure / (2 * 1)) / (specKernel 1).W1D 0) * 2) ∧
    (∀ measure : ℚ, (specKernel 1).kernelSize ≤ measure / (2 * 1) →
      ParticleRefinementByShape.smoothedSpacing (specKernel 1) 2 1 measure 1 = 2) ∧
    ParticleRefinementByShape.smoothedSpacing (specKernel 1) 2 1 0 1 = 1 ∧
    (∀ measure : ℚ, 2 * 1 * (specKernel 1).kernelSize ≤ measure →
      ParticleRefinementByShape.smoothedSpacing (specKernel 1) 2 1 measure 1 = 2) ∧
    (specKernel 1).W1D (specKernel 1).kernelSize / (specKernel 1).W1D 0 * 1 +
        (1 - (specKernel 1).W1D (specKernel 1).kernelSize / (specKernel 1).W1D 0) *
          2 = 2 :=
  c7_smoothed_spacing (specKernel 1) 2 1 1 (by norm_num [specKernel])
    (by norm_num) (by norm_num [specKernel]) (by norm_num [specKernel])

/-- The reference number density is strictly positive: the lattice point at the
origin is inside the cutoff and carries a positive weight, and all weights are
nonnegative. -/
theorem computeReferenceNumberDensity2D_pos (k : Kernel) (s : ℚ) (hs : 0 < s)
    (hc : 0 < k.cutoffRadius) (hW : ∀ x y, 0 ≤ k.W2 x y) (hW0 : 0 < k.W2 0 0) :
    0 < computeReferenceNumberDensity2D k s := by
  simp only [computeReferenceNumberDensity2D]
  have hd1 : (1 : ℤ) ≤ ⌊k.cutoffRadius / s⌋ + 1 := by
    have h0 : (0 : ℤ) ≤ ⌊k.cutoffRadius / s⌋ :=
      Int.floor_nonneg.mpr (le_of_lt (div_pos hc hs))
    omega
  have hmem : (0 : ℤ) ∈ Finset.Icc (-(⌊k.cutoffRadius / s⌋ + 1)) (⌊k.cutoffRadius / s⌋ + 1) := by
    rw [Finset.mem_Icc]
    omega
  have hterm : ∀ i j : ℤ,
      0 ≤ if ((i : ℚ) * s) ^ 2 + ((j : ℚ) * s) ^ 2 < k.cutoffRadius ^ 2 then
        k.W2 ((i : ℚ) * s) ((j : ℚ) * s) else 0 := by
    intro i j
    split
    · exact hW _ _
    · exact le_refl 0
  refine Finset.sum_pos' (fun j _ => Finset.sum_nonneg fun i _ => hterm i j) ⟨0, hmem, ?_⟩
  refine Finset.sum_pos' (fun i _ => hterm i 0) ⟨0, hmem, ?_⟩
  have hcond : (((0 : ℤ) : ℚ) * s) ^ 2 + (((0 : ℤ) : ℚ) * s) ^ 2 < k.cutoffRadius ^ 2 := by
    push_cast
    simpa using pow_pos hc 2
  rw [if_pos hcond]
  simpa using hW0

/-- C9: construction from `(referenceResolution, smoothingRatio,
refinementRatio)` installs `spacingRef = referenceResolution/refinementRatio`
and `hRef = smoothingRatio * spacingRef`, and the reference number density over
the resulting lattice is strictly positive (spec-modelled kernel facts: the
weight function is nonnegative with a positive weight at zero offset, and a
positive cutoff radius); determinism is definitional — the embedded
construction is a pure function of its inputs. -/
theorem c9_base_construction (mkKernel : ℚ → Kernel)
    (resolution_ref h_spacing_ratio system_refinement_ratio : ℚ)
    (hres : 0 < resolution_ref) (hsrr : 0 < system_refinement_ratio)
    (hc : 0 < (mkKernel (h_spacing_ratio *
      (resolution_ref / system_refinement_ratio))).cutoffRadius)
    (hW : ∀ x y, 0 ≤ (mkKernel (h_spacing_ratio *
      (resolution_ref / system_refinement_ratio))).W2 x y)
    (hW0 : 0 < (mkKernel (h_spacing_ratio *
      (resolution_ref / system_refinement_ratio))).W2 0 0) :
    (SPHAdaptation.construct mkKernel resolution_ref h_spacing_ratio
        system_refinement_ratio).spacing_ref =
      resolution_ref / system_refinement_ratio ∧
    (SPHAdaptation.construct mkKernel resolution_ref h_spacing_ratio
        system_refinement_ratio).h_ref =
      h_spacing_ratio * (resolution_ref / system_refinement_ratio) ∧
    0 < (SPHAdaptation.construct mkKernel resolution_ref h_spacing_ratio
        system_refinement_ratio).sigma0_ref :=
  ⟨rfl, rfl,
    computeReferenceNumberDensity2D_pos _ _ (div_pos hres hsrr) hc hW hW0⟩

theorem c9_base_construction_witness :
    (SPHAdaptation.construct specKernel (1/10) (13/10) 1).spacing_ref =
      (1/10 : ℚ) / 1 ∧
    (SPHAdaptation.construct specKernel (1/10) (13/10) 1).h_ref =
      (13/10 : ℚ) * ((1/10 : ℚ) / 1) ∧
    0 < (SPHAdaptation.construct specKernel (1/10) (13/10) 1).sigma0_ref :=
  c9_base_construction specKernel (1/10) (13/10) 1 (by norm_num) (by norm_num)
    (by norm_num [specKernel]) (fun x y => by norm_num [specKernel])
    (by norm_num [specKernel])

/-- A lattice coordinate whose squared contribution is below the squared
cutoff lies within the search depth `⌊c/s⌋ + 1`; in fact within `⌊c/s⌋`. -/
theorem coord_le_search_depth (c s : ℚ) (hs : 0 < s) (hc : 0 < c) (i : ℤ)
    (x : ℚ) (hle : ((i : ℚ) * s) ^ 2 ≤ x) (hlt : x < c ^ 2) :
    |i| ≤ ⌊c / s⌋ + 1 := by
  have habs : |(i : ℚ)| * s < c := by
    have h1 : (|(i : ℚ)| * s) ^ 2 < c ^ 2 := by
      rw [mul_pow, sq_abs]
      calc (i : ℚ) ^ 2 * s ^ 2 = ((i : ℚ) * s) ^ 2 := by ring
        _ ≤ x := hle
        _ < c ^ 2 := hlt
    exact lt_of_pow_lt_pow_left₀ 2 hc.le h1
  have hdiv : |(i : ℚ)| < c / s := (lt_div_iff₀ hs).mpr habs
  have hfloor : |i| ≤ ⌊c / s⌋ := by
    rw [Int.le_floor]
    push_cast
    exact hdiv.le
  omega

/-- C6, the 2-D coverage fact: every lattice point strictly inside the cutoff
has both indices within the loop range `±(int(c/s) + 1)`. -/
theorem test2_mem_box (c s : ℚ) (hs : 0 < s) (hc : 0 < c) (i j : ℤ)
    (h : ((i : ℚ) * s) ^ 2 + ((j : ℚ) * s) ^ 2 < c ^ 2) :
    |i| ≤ ⌊c / s⌋ + 1 ∧ |j| ≤ ⌊c / s⌋ + 1 :=
  ⟨coord_le_search_depth c s hs hc i _ (le_add_of_nonneg_right (sq_nonneg _)) h,
   coord_le_search_depth c s hs hc j _ (le_add_of_nonneg_left (sq_nonneg _)) h⟩

/-- C6, the 3-D coverage fact. -/
theorem test3_mem_box (c s : ℚ) (hs : 0 < s) (hc : 0 < c) (i j l : ℤ)
    (h : ((i : ℚ) * s) ^ 2 + ((j : ℚ) * s) ^ 2 + ((l : ℚ) * s) ^ 2 < c ^ 2) :
    |i| ≤ ⌊c / s⌋ + 1 ∧ |j| ≤ ⌊c / s⌋ + 1 ∧ |l| ≤ ⌊c / s⌋ + 1 := by
  refine ⟨coord_le_search_depth c s hs hc i _ ?_ h,
    coord_le_search_depth c s hs hc j _ ?_ h,
    coord_le_search_depth c s hs hc l _ ?_ h⟩ <;>
    nlinarith [sq_nonneg ((i : ℚ) * s), sq_nonneg ((j : ℚ) * s),
      sq_nonneg ((l : ℚ) * s)]

/-- Membership in the traversal box, from the coverage facts. -/
theorem abs_le_mem_Icc (i d : ℤ) (h : |i| ≤ d) : i ∈ Finset.Icc (-d) d := by
  rw [Finset.mem_Icc]
  constructor <;> [linarith [neg_abs_le i]; linarith [le_abs_self i]]

/-- The 2-D traversal is exact: enlarging the traversal box beyond the
source's `±(int(c/s) + 1)` bound, while keeping the strict inclusion test,
does not change the sum, because the test already confines the offsets to the
source's box. -/
theorem computeReferenceNumberDensity2D_extend (k : Kernel) (s : ℚ)
    (hs : 0 < s) (hc : 0 < k.cutoffRadius) (D : ℤ)
    (hD : ⌊k.cutoffRadius / s⌋ + 1 ≤ D) :
    computeReferenceNumberDensity2D k s =
      ∑ j ∈ Finset.Icc (-D) D, ∑ i ∈ Finset.Icc (-D) D,
        if ((i : ℚ) * s) ^ 2 + ((j : ℚ) * s) ^ 2 < k.cutoffRadius ^ 2 then
          k.W2 ((i : ℚ) * s) ((j : ℚ) * s)
        else 0 := by
  simp only [computeReferenceNumberDensity2D]
  have hsub : Finset.Icc (-(⌊k.cutoffRadius / s⌋ + 1)) (⌊k.cutoffRadius / s⌋ + 1) ⊆
      Finset.Icc (-D) D := Finset.Icc_subset_Icc (by omega) hD
  calc
    ∑ j ∈ Finset.Icc (-(⌊k.cutoffRadius / s⌋ + 1)) (⌊k.cutoffRadius / s⌋ + 1),
        ∑ i ∈ Finset.Icc (-(⌊k.cutoffRadius / s⌋ + 1)) (⌊k.cutoffRadius / s⌋ + 1),
          (if ((i : ℚ) * s) ^ 2 + ((j : ℚ) * s) ^ 2 < k.cutoffRadius ^ 2 then
            k.W2 ((i : ℚ) * s) ((j : ℚ) * s) else 0) =
      ∑ j ∈ Finset.Icc (-(⌊k.cutoffRadius / s⌋ + 1)) (⌊k.cutoffRadius / s⌋ + 1),
        ∑ i ∈ Finset.Icc (-D) D,
          (if ((i : ℚ) * s) ^ 2 + ((j : ℚ) * s) ^ 2 < k.cutoffRadius ^ 2 then
            k.W2 ((i : ℚ) * s) ((j : ℚ) * s) else 0) := by
      refine Finset.sum_congr rfl fun j _ => Finset.sum_subset hsub fun i _ hi => ?_
      refine if_neg fun h => hi ?_
      exact abs_le_mem_Icc i _ (test2_mem_box k.cutoffRadius s hs hc i j h).1
    _ = ∑ j ∈ Finset.Icc (-D) D, ∑ i ∈ Finset.Icc (-D) D,
          (if ((i : ℚ) * s) ^ 2 + ((j : ℚ) * s) ^ 2 < k.cutoffRadius ^ 2 then
            k.W2 ((i : ℚ) * s) ((j : ℚ) * s) else 0) := by
      refine Finset.sum_subset hsub fun j _ hj => Finset.sum_eq_zero fun i _ => ?_
      refine if_neg fun h => hj ?_
      exact abs_le_mem_Icc j _ (test2_mem_box k.cutoffRadius s hs hc i j h).2

/-- The 3-D traversal is exact, as in the 2-D case. -/
theorem computeReferenceNumberDensity3D_extend (k : Kernel) (s : ℚ)
    (hs : 0 < s) (hc : 0 < k.cutoffRadius) (D : ℤ)
    (hD : ⌊k.cutoffRadius / s⌋ + 1 ≤ D) :
    computeReferenceNumberDensity3D k s =
      ∑ l ∈ Finset.Icc (-D) D, ∑ j ∈ Finset.Icc (-D) D, ∑ i ∈ Finset.Icc (-D) D,
        if ((i : ℚ) * s) ^ 2 + ((j : ℚ) * s) ^ 2 + ((l : ℚ) * s) ^ 2 <
            k.cutoffRadius ^ 2 then
          k.W3 ((i : ℚ) * s) ((j : ℚ) * s) ((l : ℚ) * s)
        else 0 := by
  simp only [computeReferenceNumberDensity3D]
  have hsub : Finset.Icc (-(⌊k.cutoffRadius / s⌋ + 1)) (⌊k.cutoffRadius / s⌋ + 1) ⊆
      Finset.Icc (-D) D := Finset.Icc_subset_Icc (by omega) hD
  calc
    ∑ l ∈ Finset.Icc (-(⌊k.cutoffRadius / s⌋ + 1)) (⌊k.cutoffRadius / s⌋ + 1),
        ∑ j ∈ Finset.Icc (-(⌊k.cutoffRadius / s⌋ + 1)) (⌊k.cutoffRadius / s⌋ + 1),
          ∑ i ∈ Finset.Icc (-(⌊k.cutoffRadius / s⌋ + 1)) (⌊k.cutoffRadius / s⌋ + 1),
            (if ((i : ℚ) * s) ^ 2 + ((j : ℚ) * s) ^ 2 + ((l : ℚ) * s) ^ 2 <
                k.cutoffRadius ^ 2 then
              k.W3 ((i : ℚ) * s) ((j : ℚ) * s) ((l : ℚ) * s) else 0) =
      ∑ l ∈ Finset.Icc (-(⌊k.cutoffRadius / s⌋ + 1)) (⌊k.cutoffRadius / s⌋ + 1),
        ∑ j ∈ Finset.Icc (-(⌊k.cutoffRadius / s⌋ + 1)) (⌊k.cutoffRadius / s⌋ + 1),
          ∑ i ∈ Finset.Icc (-D) D,
            (if ((i : ℚ) * s) ^ 2 + ((j : ℚ) * s) ^ 2 + ((l : ℚ) * s) ^ 2 <
                k.cutoffRadius ^ 2 then
              k.W3 ((i : ℚ) * s) ((j : ℚ) * s) ((l : ℚ) * s) else 0) := by
      refine Finset.sum_congr rfl fun l _ => Finset.sum_congr rfl fun j _ =>
        Finset.sum_subset hsub fun i _ hi => ?_
      refine if_neg fun h => hi ?_
      exact abs_le_mem_Icc i _ (test3_mem_box k.cutoffRadius s hs hc i j l h).1
    _ = ∑ l ∈ Finset.Icc (-(⌊k.cutoffRadius / s⌋ + 1)) (⌊k.cutoffRadius / s⌋ + 1),
        ∑ j ∈ Finset.Icc (-D) D, ∑ i ∈ Finset.Icc (-D) D,
          (if ((i : ℚ) * s) ^ 2 + ((j : ℚ) * s) ^ 2 + ((l : ℚ) * s) ^ 2 <
              k.cutoffRadius ^ 2 then
            k.W3 ((i : ℚ) * s) ((j : ℚ) * s) ((l : ℚ) * s) else 0) := by
      refine Finset.sum_congr rfl fun l _ =>
        Finset.sum_subset hsub fun j _ hj => Finset.sum_eq_zero fun i _ => ?_
      refine if_neg fun h => hj ?_
      exact abs_le_mem_Icc j _ (test3_mem_box k.cutoffRadius s hs hc i j l h).2.1
    _ = ∑ l ∈ Finset.Icc (-D) D, ∑ j ∈ Finset.Icc (-D) D, ∑ i ∈ Finset.Icc (-D) D,
          (if ((i : ℚ) * s) ^ 2 + ((j : ℚ) * s) ^ 2 + ((l : ℚ) * s) ^ 2 <
              k.cutoffRadius ^ 2 then
            k.W3 ((i : ℚ) * s) ((j : ℚ) * s) ((l : ℚ) * s) else 0) := by
      refine Finset.sum_subset hsub fun l _ hl =>
        Finset.sum_eq_zero fun j _ => Finset.sum_eq_zero fun i _ => ?_
      refine if_neg fun h => hl ?_
      exact abs_le_mem_Icc l _ (test3_mem_box k.cutoffRadius s hs hc i j l h).2.2

/-- C6: `computeReferenceNumberDensity` sums the kernel weight over the
regular lattice of offsets `(i*s, j*s[, l*s])` with each index ranging over
the `±(int(c/s) + 1)` cells of the source loops; the strict inclusion test
`distance < cutoffRadius` already confines the offsets to that range (the
coverage conjuncts), so the double-loop 2-D form and the triple-loop 3-D form
each equal the same sum over any traversal box at least that large — the
summed offset set is exactly the lattice points strictly inside the cutoff. -/
theorem c6_reference_density_lattice (k : Kernel) (s : ℚ) (hs : 0 < s)
    (hc : 0 < k.cutoffRadius) (D : ℤ) (hD : ⌊k.cutoffRadius / s⌋ + 1 ≤ D) :
    (∀ i j : ℤ, ((i : ℚ) * s) ^ 2 + ((j : ℚ) * s) ^ 2 < k.cutoffRadius ^ 2 →
      |i| ≤ ⌊k.cutoffRadius / s⌋ + 1 ∧ |j| ≤ ⌊k.cutoffRadius / s⌋ + 1) ∧
    computeReferenceNumberDensity2D k s =
      (∑ j ∈ Finset.Icc (-D) D, ∑ i ∈ Finset.Icc (-D) D,
        if ((i : ℚ) * s) ^ 2 + ((j : ℚ) * s) ^ 2 < k.cutoffRadius ^ 2 then
          k.W2 ((i : ℚ) * s) ((j : ℚ) * s)
        else 0) ∧
    (∀ i j l : ℤ,
      ((i : ℚ) * s) ^ 2 + ((j : ℚ) * s) ^ 2 + ((l : ℚ) * s) ^ 2 <
          k.cutoffRadius ^ 2 →
      |i| ≤ ⌊k.cutoffRadius / s⌋ + 1 ∧ |j| ≤ ⌊k.cutoffRadius / s⌋ + 1 ∧
        |l| ≤ ⌊k.cutoffRadius / s⌋ + 1) ∧
    computeReferenceNumberDensity3D k s =
      ∑ l ∈ Finset.Icc (-D) D, ∑ j ∈ Finset.Icc (-D) D, ∑ i ∈ Finset.Icc (-D) D,
        if ((i : ℚ) * s) ^ 2 + ((j : ℚ) * s) ^ 2 + ((l : ℚ) * s) ^ 2 <
            k.cutoffRadius ^ 2 then
          k.W3 ((i : ℚ) * s) ((j : ℚ) * s) ((l : ℚ) * s)
        else 0 :=
  ⟨fun i j h => test2_mem_box k.cutoffRadius s hs hc i j h,
   computeReferenceNumberDensity2D_extend k s hs hc D hD,
   fun i j l h => test3_mem_box k.cutoffRadius s hs hc i j l h,
   computeReferenceNumberDensity3D_extend k s hs hc D hD⟩

theorem c6_reference_density_lattice_witness :
    (∀ i j : ℤ, ((i : ℚ) * 1) ^ 2 + ((j : ℚ) * 1) ^ 2 <
        (specKernel 1).cutoffRadius ^ 2 →
      |i| ≤ ⌊(specKernel 1).cutoffRadius / 1⌋ + 1 ∧
        |j| ≤ ⌊(specKernel 1).cutoffRadius / 1⌋ + 1) ∧
    computeReferenceNumberDensity2D (specKernel 1) 1 =
      (∑ j ∈ Finset.Icc (-4 : ℤ) 4, ∑ i ∈ Finset.Icc (-4 : ℤ) 4,
        if ((i : ℚ) * 1) ^ 2 + ((j : ℚ) * 1) ^ 2 < (specKernel 1).cutoffRadius ^ 2 then
          (specKernel 1).W2 ((i : ℚ) * 1) ((j : ℚ) * 1)
        else 0) ∧
    (∀ i j l : ℤ,
      ((i : ℚ) * 1) ^ 2 + ((j : ℚ) * 1) ^ 2 + ((l : ℚ) * 1) ^ 2 <
          (specKernel 1).cutoffRadius ^ 2 →
      |i| ≤ ⌊(specKernel 1).cutoffRadius / 1⌋ + 1 ∧
        |j| ≤ ⌊(specKernel 1).cutoffRadius / 1⌋ + 1 ∧
        |l| ≤ ⌊(specKernel 1).cutoffRadius / 1⌋ + 1) ∧
    computeReferenceNumberDensity3D (specKernel 1) 1 =
      ∑ l ∈ Finset.Icc (-4 : ℤ) 4, ∑ j ∈ Finset.Icc (-4 : ℤ) 4,
        ∑ i ∈ Finset.Icc (-4 : ℤ) 4,
          if ((i : ℚ) * 1) ^ 2 + ((j : ℚ) * 1) ^ 2 + ((l : ℚ) * 1) ^ 2 <
              (specKernel 1).cutoffRadius ^ 2 then
            (specKernel 1).W3 ((i : ℚ) * 1) ((j : ℚ) * 1) ((l : ℚ) * 1)
          else 0 :=
  c6_reference_density_lattice (specKernel 1) 1 (by norm_num)
    (by norm_num [specKernel]) 4 (by norm_num [specKernel])

/-- The split/merge spacing ratio `(2^L)^(1/D)` is `2^(L/D)`. -/
theorem splitMerge_spacing_ratio_eq (Dimensions local_refinement_level : ℕ) :
    ((2 : ℝ) ^ local_refinement_level) ^ ((1 : ℝ) / (Dimensions : ℝ)) =
      (2 : ℝ) ^ ((local_refinement_level : ℝ) / (Dimensions : ℝ)) := by
  rw [← Real.rpow_natCast 2 local_refinement_level,
    ← Real.rpow_mul (by norm_num : (0 : ℝ) ≤ 2), mul_one_div]

/-- C10: for the split/merge policy each refinement level halves particle
volume rather than spacing — `spacingMin = spacingRef / 2^(L/D)` (the `D`-th
root of `2^L`), not `spacingRef / 2^L`; hence
`minimumVolume = spacingMin^D = spacingRef^D / 2^L` and
`hRatioMax = spacingRef / spacingMin = 2^(L/D)`. -/
theorem c10_split_merge_refined_spacing (Dimensions local_refinement_level : ℕ)
    (spacing_ref : ℝ) (hD : 0 < Dimensions) (hs : 0 < spacing_ref) :
    (ParticleSplitAndMerge.constructSpacing Dimensions spacing_ref
        local_refinement_level).spacing_min =
      spacing_ref / (2 : ℝ) ^ ((local_refinement_level : ℝ) / (Dimensions : ℝ)) ∧
    (ParticleSplitAndMerge.constructSpacing Dimensions spacing_ref
        local_refinement_level).minimum_volume =
      spacing_ref ^ Dimensions / 2 ^ local_refinement_level ∧
    (ParticleSplitAndMerge.constructSpacing Dimensions spacing_ref
        local_refinement_level).h_ratio_max =
      (2 : ℝ) ^ ((local_refinement_level : ℝ) / (Dimensions : ℝ)) ∧
    (ParticleSplitAndMerge.constructSpacing Dimensions spacing_ref
        local_refinement_level).h_ratio_max =
      spacing_ref / (ParticleSplitAndMerge.constructSpacing Dimensions spacing_ref
        local_refinement_level).spacing_min ∧
    (1 ≤ local_refinement_level → 2 ≤ Dimensions →
      (ParticleSplitAndMerge.constructSpacing Dimensions spacing_ref
          local_refinement_level).spacing_min ≠
        spacing_ref / 2 ^ local_refinement_level) := by
  have hD0 : (Dimensions : ℝ) ≠ 0 := Nat.cast_ne_zero.mpr hD.ne'
  have hrpos : (0 : ℝ) < (2 : ℝ) ^ ((local_refinement_level : ℝ) / (Dimensions : ℝ)) :=
    Real.rpow_pos_of_pos (by norm_num) _
  have hmin : (ParticleSplitAndMerge.constructSpacing Dimensions spacing_ref
      local_refinement_level).spacing_min =
      spacing_ref / (2 : ℝ) ^ ((local_refinement_level : ℝ) / (Dimensions : ℝ)) := by
    simp only [ParticleSplitAndMerge.constructSpacing,
      ParticleSplitAndMerge.MostRefinedSpacing,
      splitMerge_spacing_ratio_eq Dimensions local_refinement_level]
  have hpow : ((2 : ℝ) ^ ((local_refinement_level : ℝ) / (Dimensions : ℝ))) ^ Dimensions =
      (2 : ℝ) ^ local_refinement_level := by
    rw [← Real.rpow_natCast
        ((2 : ℝ) ^ ((local_refinement_level : ℝ) / (Dimensions : ℝ))) Dimensions,
      ← Real.rpow_mul (by norm_num : (0 : ℝ) ≤ 2), div_mul_cancel₀ _ hD0,
      Real.rpow_natCast]
  refine ⟨hmin, ?_, ?_, ?_, ?_⟩
  · have : (ParticleSplitAndMerge.constructSpacing Dimensions spacing_ref
        local_refinement_level).minimum_volume =
        (ParticleSplitAndMerge.constructSpacing Dimensions spacing_ref
          local_refinement_level).spacing_min ^ Dimensions := rfl
    rw [this, hmin, div_pow, hpow]
  · have : (ParticleSplitAndMerge.constructSpacing Dimensions spacing_ref
        local_refinement_level).h_ratio_max =
        spacing_ref / (ParticleSplitAndMerge.constructSpacing Dimensions spacing_ref
          local_refinement_level).spacing_min := rfl
    rw [this, hmin]
    field_simp
  · rfl
  · intro hL hDim
    rw [hmin]
    have hlt : (2 : ℝ) ^ ((local_refinement_level : ℝ) / (Dimensions : ℝ)) <
        2 ^ local_refinement_level := by
      rw [← Real.rpow_natCast 2 local_refinement_level]
      rw [Real.rpow_lt_rpow_left_iff (by norm_num : (1 : ℝ) < 2)]
      have hLpos : (0 : ℝ) < (local_refinement_level : ℝ) := by
        exact_mod_cast hL
      have hDgt : (1 : ℝ) < (Dimensions : ℝ) := by
        exact_mod_cast hDim
      exact div_lt_self hLpos hDgt
    have h2L : (0 : ℝ) < (2 : ℝ) ^ local_refinement_level := by positivity
    have : spacing_ref / 2 ^ local_refinement_level <
        spacing_ref / (2 : ℝ) ^ ((local_refinement_level : ℝ) / (Dimensions : ℝ)) :=
      div_lt_div_of_pos_left hs hrpos hlt
    exact (ne_of_gt this)

theorem c10_split_merge_refined_spacing_witness :
    (ParticleSplitAndMerge.constructSpacing 2 1 2).spacing_min =
      1 / (2 : ℝ) ^ (((2 : ℕ) : ℝ) / ((2 : ℕ) : ℝ)) ∧
    (ParticleSplitAndMerge.constructSpacing 2 1 2).minimum_volume =
      (1 : ℝ) ^ (2 : ℕ) / 2 ^ (2 : ℕ) ∧
    (ParticleSplitAndMerge.constructSpacing 2 1 2).h_ratio_max =
      (2 : ℝ) ^ (((2 : ℕ) : ℝ) / ((2 : ℕ) : ℝ)) ∧
    (ParticleSplitAndMerge.constructSpacing 2 1 2).h_ratio_max =
      1 / (ParticleSplitAndMerge.constructSpacing 2 1 2).spacing_min ∧
    (1 ≤ (2 : ℕ) → 2 ≤ (2 : ℕ) →
      (ParticleSplitAndMerge.constructSpacing 2 1 2).spacing_min ≠
        1 / 2 ^ (2 : ℕ)) :=
  c10_split_merge_refined_spacing 2 2 1 (by norm_num) (by norm_num)

end SPHinXsysAdaptation
